import Mathlib

/-!
Shallow embedding of the options contract selection engine
(function findBestOptionsContract of the strategy's options utilities).

Modelling conventions:
* JS numbers are embedded as rationals (all arithmetic in the engine is
  exact at the magnitudes involved; Math.floor / Math.ceil become Int.floor
  and Int.ceil on rationals).
* An expiration date string is embedded as its epoch day number: parsing
  the date string yields the UTC midnight instant, i.e. day * msPerDay
  milliseconds.  The current instant (today.getTime()) is an arbitrary
  millisecond count.
* Nullable / possibly-absent values are Option; provider calls that can
  throw are Except Unit values supplied by an environment record, which the
  claims quantify over (the providers are external collaborators).
* The surrounding try/catch becomes a match on the Except result of the
  inner pipeline; the per-call .catch on the underlying stock snapshot
  becomes a local match collapsing errors to none.
* The instrumented variant also counts the provider calls made, for the
  call-budget properties.
-/

namespace Mahoraga

/-- Milliseconds per day, as in the source's 1000 * 60 * 60 * 24. -/
def msPerDay : ℤ := 1000 * 60 * 60 * 24

/-- DTE as computed in the source:
Math.ceil((expDate.getTime() - today.getTime()) / (1000 * 60 * 60 * 24)). -/
def dteOf (expMs nowMs : ℤ) : ℤ := ⌈((expMs - nowMs : ℤ) : ℚ) / (msPerDay : ℚ)⌉

/-- DTE of an expiration given as an epoch day (parsed at UTC midnight). -/
def dteOfExp (nowMs expDay : ℤ) : ℤ := dteOf (expDay * msPerDay) nowMs

/-- Modelled from the spec: DTE formula
ceil((expiration_midnight - today_midnight) / 1 day), with the current
instant truncated to its midnight before the subtraction. -/
def specDte (expDay nowMs : ℤ) : ℤ :=
  ⌈(((expDay * msPerDay : ℤ) : ℚ) - ((⌊(nowMs : ℚ) / (msPerDay : ℚ)⌋ * msPerDay : ℤ) : ℚ)) / (msPerDay : ℚ)⌉

/-- A quote as used by the engine (bid/ask may be absent). -/
structure Quote where
  bid_price : Option ℚ
  ask_price : Option ℚ
deriving DecidableEq

/-- The latest-trade part of a stock snapshot. -/
structure Trade where
  price : Option ℚ
deriving DecidableEq

/-- Greeks of an option snapshot; only delta is consumed. -/
structure Greeks where
  delta : Option ℚ
deriving DecidableEq

/-- A stock (underlying) snapshot. -/
structure StockSnapshot where
  latest_trade : Option Trade
  latest_quote : Option Quote
deriving DecidableEq

/-- An option contract snapshot. -/
structure OptSnapshot where
  latest_quote : Option Quote
  greeks : Option Greeks
deriving DecidableEq

/-- A contract of the option chain: symbol and strike (the engine reads
nothing else from it). -/
structure ChainContract where
  symbol : String
  strike : ℚ
deriving DecidableEq

/-- The chain returned by the provider; the source defends against the
lists being absent, so they are Options here. -/
structure OptionChain where
  calls : Option (List ChainContract)
  puts : Option (List ChainContract)
deriving DecidableEq

/-- Requested direction. -/
inductive Direction where
  | bullish
  | bearish
deriving DecidableEq

/-- Option kind of the selected contract. -/
inductive OptionType where
  | call
  | put
deriving DecidableEq

/-- The engine's result record. -/
structure OptionsContract where
  symbol : String
  strike : ℚ
  expiration : ℤ
  delta : ℚ
  mid_price : ℚ
  max_contracts : ℤ
  option_type : OptionType
deriving DecidableEq

/-- The configuration fields the engine reads. -/
structure Config where
  options_enabled : Bool
  options_min_dte : ℤ
  options_max_dte : ℤ
  options_target_delta : ℚ
  options_min_delta : ℚ
  options_max_delta : ℚ
  options_max_pct_per_trade : ℚ
deriving DecidableEq

/-- Behaviour of the external collaborators for one invocation, plus the
current instant.  Throwing calls are Except.error; nullable results are
Option.  getOptSnapshot is keyed by contract symbol. -/
structure Env where
  getExpirations : Except Unit (Option (List ℤ))
  getChain : Except Unit (Option OptionChain)
  getStockSnapshot : Except Unit (Option StockSnapshot)
  getOptSnapshot : String → Except Unit (Option OptSnapshot)
  nowMs : ℤ

/-- JS (x || y) for a possibly-absent number x: y when x is absent or 0. -/
def jsOrQ (x : Option ℚ) (y : ℚ) : ℚ :=
  match x with
  | none => y
  | some v => if v = 0 then y else v

/-- The underlying price as in the source:
snapshot?.latest_trade?.price || snapshot?.latest_quote?.ask_price ||
snapshot?.latest_quote?.bid_price || 0. -/
def stockPriceOf (snapshot : Option StockSnapshot) : ℚ :=
  jsOrQ ((snapshot.bind StockSnapshot.latest_trade).bind Trade.price)
    (jsOrQ ((snapshot.bind StockSnapshot.latest_quote).bind Quote.ask_price)
      (jsOrQ ((snapshot.bind StockSnapshot.latest_quote).bind Quote.bid_price) 0))

/-- The DTE window filter over the expiration list. -/
def validExpirationsOf (cfg : Config) (nowMs : ℤ) (exps : List ℤ) : List ℤ :=
  exps.filter fun exp =>
    decide (cfg.options_min_dte ≤ dteOfExp nowMs exp) &&
    decide (dteOfExp nowMs exp ≤ cfg.options_max_dte)

/-- targetDTE = (options_min_dte + options_max_dte) / 2, real-valued. -/
def targetDTEOf (cfg : Config) : ℚ := ((cfg.options_min_dte : ℚ) + (cfg.options_max_dte : ℚ)) / 2

/-- Distance of an expiration's DTE from the target DTE. -/
def expDist (cfg : Config) (nowMs expDay : ℤ) : ℚ :=
  |(dteOfExp nowMs expDay : ℚ) - targetDTEOf cfg|

/-- The reduce callback: keeps the incumbent unless the candidate is
strictly closer to the target DTE. -/
def closerExp (cfg : Config) (nowMs : ℤ) (best exp : ℤ) : ℤ :=
  if expDist cfg nowMs exp < expDist cfg nowMs best then exp else best

/-- The reduce over validExpirations with initial value validExpirations[0].
none exactly when the list is empty. -/
def bestExpirationOf (cfg : Config) (nowMs : ℤ) (valid : List ℤ) : Option ℤ :=
  match valid with
  | [] => none
  | v0 :: _ => some (valid.foldl (closerExp cfg nowMs) v0)

/-- Target strike from the underlying price and the configured target delta. -/
def targetStrikeOf (dir : Direction) (cfg : Config) (stockPrice : ℚ) : ℚ :=
  match dir with
  | .bullish => stockPrice * (1 - (cfg.options_target_delta - 0.5) * 0.2)
  | .bearish => stockPrice * (1 + (cfg.options_target_delta - 0.5) * 0.2)

/-- Distance of a contract's strike from the target strike. -/
def strikeDist (targetStrike : ℚ) (c : ChainContract) : ℚ := |c.strike - targetStrike|

/-- contracts.filter(c => c.strike > 0).sort by |strike - targetStrike|
(JS Array.prototype.sort is a stable comparison sort; mergeSort with the
induced total preorder models it). -/
def rankedContractsOf (targetStrike : ℚ) (contracts : List ChainContract) : List ChainContract :=
  (contracts.filter fun c => decide (0 < c.strike)).mergeSort
    fun a b => decide (strikeDist targetStrike a ≤ strikeDist targetStrike b)

/-- maxContracts = Math.floor(equity * options_max_pct_per_trade / (midPrice * 100)). -/
def maxContractsOf (equity maxPct midPrice : ℚ) : ℤ :=
  ⌊equity * maxPct / (midPrice * 100)⌋

/-- direction === "bullish" ? "call" : "put". -/
def optionTypeOf (dir : Direction) : OptionType :=
  match dir with
  | .bullish => .call
  | .bearish => .put

/-- The qualification-loop body for one candidate, given its (possibly
absent) snapshot: none means the continue of the source, some is the
early return. -/
def evalCandidate (cfg : Config) (equity : ℚ) (bestExpiration : ℤ) (dir : Direction)
    (c : ChainContract) : Option OptSnapshot → Option OptionsContract
  | none => none
  | some optSnapshot =>
    match optSnapshot.greeks.bind Greeks.delta with
    | none => none
    | some delta =>
      if |delta| < cfg.options_min_delta ∨ cfg.options_max_delta < |delta| then none
      else
        let bid := jsOrQ (optSnapshot.latest_quote.bind Quote.bid_price) 0
        let ask := jsOrQ (optSnapshot.latest_quote.bind Quote.ask_price) 0
        if bid = 0 ∨ ask = 0 then none
        else
          if (0.1 : ℚ) < (ask - bid) / ask then none
          else
            let midPrice := (bid + ask) / 2
            let maxContracts := maxContractsOf equity cfg.options_max_pct_per_trade midPrice
            if maxContracts < 1 then none
            else
              some { symbol := c.symbol
                     strike := c.strike
                     expiration := bestExpiration
                     delta := delta
                     mid_price := midPrice
                     max_contracts := maxContracts
                     option_type := optionTypeOf dir }

/-- One candidate evaluated through the environment: none both when the
snapshot is absent and when a gate rejects (an error is mapped to none
here only for the first-qualifying characterization; in the loop itself an
error aborts the whole pipeline). -/
def evalCandidateE (env : Env) (cfg : Config) (equity : ℚ) (bestExpiration : ℤ)
    (dir : Direction) (c : ChainContract) : Option OptionsContract :=
  match env.getOptSnapshot c.symbol with
  | .error _ => none
  | .ok snap => evalCandidate cfg equity bestExpiration dir c snap

/-- The qualification loop over the (already truncated) ranked candidates.
Returns the Except outcome of the loop together with the number of
per-contract snapshot fetches issued. -/
def qualifyLoop (env : Env) (cfg : Config) (equity : ℚ) (bestExpiration : ℤ)
    (dir : Direction) : List ChainContract → Except Unit (Option OptionsContract) × ℕ
  | [] => (Except.ok none, 0)
  | c :: rest =>
    match env.getOptSnapshot c.symbol with
    | Except.error e => (Except.error e, 1)
    | Except.ok snap =>
      match evalCandidate cfg equity bestExpiration dir c snap with
      | some result => (Except.ok (some result), 1)
      | none =>
        let r := qualifyLoop env cfg equity bestExpiration dir rest
        (r.1, r.2 + 1)

/-- Number of calls made to each external collaborator in one invocation. -/
structure Calls where
  expirations : ℕ
  chain : ℕ
  stock : ℕ
  snaps : ℕ
deriving DecidableEq

/-- The body of the try block, instrumented with the call counts. -/
def findBestInner (env : Env) (cfg : Config) (dir : Direction) (equity : ℚ) :
    Except Unit (Option OptionsContract) × Calls :=
  match env.getExpirations with
  | .error e => (.error e, ⟨1, 0, 0, 0⟩)
  | .ok none => (.ok none, ⟨1, 0, 0, 0⟩)
  | .ok (some exps) =>
    if exps.isEmpty then (.ok none, ⟨1, 0, 0, 0⟩)
    else
      match bestExpirationOf cfg env.nowMs (validExpirationsOf cfg env.nowMs exps) with
      | none => (.ok none, ⟨1, 0, 0, 0⟩)
      | some bestExpiration =>
        match env.getChain with
        | .error e => (.error e, ⟨1, 1, 0, 0⟩)
        | .ok none => (.ok none, ⟨1, 1, 0, 0⟩)
        | .ok (some chain) =>
          match (match dir with | .bullish => chain.calls | .bearish => chain.puts) with
          | none => (.ok none, ⟨1, 1, 0, 0⟩)
          | some contracts =>
            if contracts.isEmpty then (.ok none, ⟨1, 1, 0, 0⟩)
            else
              let snapshot : Option StockSnapshot :=
                match env.getStockSnapshot with
                | .error _ => none
                | .ok s => s
              let stockPrice := stockPriceOf snapshot
              if stockPrice = 0 then (.ok none, ⟨1, 1, 1, 0⟩)
              else
                let targetStrike := targetStrikeOf dir cfg stockPrice
                let ranked := rankedContractsOf targetStrike contracts
                let r := qualifyLoop env cfg equity bestExpiration dir (ranked.take 5)
                (r.1, ⟨1, 1, 1, r.2⟩)

/-- The exposed engine: the early options_enabled guard, then the try
block with the catch collapsing any provider error into null. -/
def findBestOptionsContract (env : Env) (cfg : Config) (dir : Direction) (equity : ℚ) :
    Option OptionsContract :=
  if cfg.options_enabled = false then none
  else
    match (findBestInner env cfg dir equity).1 with
    | .ok r => r
    | .error _ => none

/-- Call counts of one invocation (zero when options are disabled). -/
def findBestCalls (env : Env) (cfg : Config) (dir : Direction) (equity : ℚ) : Calls :=
  if cfg.options_enabled = false then ⟨0, 0, 0, 0⟩
  else (findBestInner env cfg dir equity).2

/-- The qualification gates, written out flatly the way the specification
words them: a candidate qualifies when its snapshot is present, delta is
present, |delta| lies in the configured band, bid and ask are nonzero, the
spread fraction is at most 10%, and the budget-constrained size is at
least one contract. -/
def qualifiesSpec (cfg : Config) (equity : ℚ) (snap? : Option OptSnapshot) : Prop :=
  ∃ snap delta, snap? = some snap ∧ snap.greeks.bind Greeks.delta = some delta ∧
    cfg.options_min_delta ≤ |delta| ∧ |delta| ≤ cfg.options_max_delta ∧
    jsOrQ (snap.latest_quote.bind Quote.bid_price) 0 ≠ 0 ∧
    jsOrQ (snap.latest_quote.bind Quote.ask_price) 0 ≠ 0 ∧
    (jsOrQ (snap.latest_quote.bind Quote.ask_price) 0 -
        jsOrQ (snap.latest_quote.bind Quote.bid_price) 0) /
      jsOrQ (snap.latest_quote.bind Quote.ask_price) 0 ≤ 0.1 ∧
    1 ≤ maxContractsOf equity cfg.options_max_pct_per_trade
      ((jsOrQ (snap.latest_quote.bind Quote.bid_price) 0 +
        jsOrQ (snap.latest_quote.bind Quote.ask_price) 0) / 2)

/-! ### Helper lemmas -/

theorem msPerDay_pos : (0 : ℤ) < msPerDay := by norm_num [msPerDay]

/-- Closed form of the source's DTE: the ceiling of the not-truncated
difference collapses to the whole-day difference from today's midnight. -/
theorem dteOfExp_eq (nowMs expDay : ℤ) :
    dteOfExp nowMs expDay = expDay - ⌊(nowMs : ℚ) / (msPerDay : ℚ)⌋ := by
  have hD : ((msPerDay : ℤ) : ℚ) ≠ 0 := by norm_num [msPerDay]
  unfold dteOfExp dteOf
  have harg : ((expDay * msPerDay - nowMs : ℤ) : ℚ) / (msPerDay : ℚ) =
      -((nowMs : ℚ) / (msPerDay : ℚ)) + (expDay : ℚ) := by
    field_simp
    ring
  rw [harg, Int.ceil_add_int, Int.ceil_neg]
  omega

/-- Closed form of the spec-worded DTE formula: the same whole-day
difference. -/
theorem specDte_eq (expDay nowMs : ℤ) :
    specDte expDay nowMs = expDay - ⌊(nowMs : ℚ) / (msPerDay : ℚ)⌋ := by
  have hD : ((msPerDay : ℤ) : ℚ) ≠ 0 := by norm_num [msPerDay]
  unfold specDte
  have harg : (((expDay * msPerDay : ℤ) : ℚ) -
      ((⌊(nowMs : ℚ) / (msPerDay : ℚ)⌋ * msPerDay : ℤ) : ℚ)) / (msPerDay : ℚ) =
      ((expDay - ⌊(nowMs : ℚ) / (msPerDay : ℚ)⌋ : ℤ) : ℚ) := by
    field_simp
    ring
  rw [harg, Int.ceil_intCast]

/-- With the current instant at the epoch, the DTE of an epoch-day
expiration is the day number itself. -/
theorem dteOfExp_zero (expDay : ℤ) : dteOfExp 0 expDay = expDay := by
  rw [dteOfExp_eq]
  norm_num

/-- The closerExp step cannot move farther from the target: its result is
at least as close as either argument. -/
theorem closerExp_le (cfg : Config) (nowMs : ℤ) (b x : ℤ) :
    expDist cfg nowMs (closerExp cfg nowMs b x) ≤ expDist cfg nowMs b
    ∧ expDist cfg nowMs (closerExp cfg nowMs b x) ≤ expDist cfg nowMs x := by
  unfold closerExp
  split
  · exact ⟨le_of_lt (by assumption), le_refl _⟩
  · exact ⟨le_refl _, not_lt.mp (by assumption)⟩

/-- The left fold of closerExp yields the first element of b :: l
attaining the minimum distance: it is a minimizer, and everything
strictly before it in b :: l is strictly farther. -/
theorem foldl_closerExp_argmin (cfg : Config) (nowMs : ℤ) :
    ∀ (l : List ℤ) (b : ℤ),
      expDist cfg nowMs (l.foldl (closerExp cfg nowMs) b) ≤ expDist cfg nowMs b
      ∧ (∀ x ∈ l, expDist cfg nowMs (l.foldl (closerExp cfg nowMs) b) ≤ expDist cfg nowMs x)
      ∧ ∃ p s, b :: l = p ++ (l.foldl (closerExp cfg nowMs) b) :: s
          ∧ ∀ x ∈ p, expDist cfg nowMs (l.foldl (closerExp cfg nowMs) b) < expDist cfg nowMs x := by
  intro l
  induction l with
  | nil =>
    intro b
    exact ⟨le_refl _, by simp, [], [], by simp, by simp⟩
  | cons x xs ih =>
    intro b
    simp only [List.foldl_cons]
    obtain ⟨ih1, ih2, p, s, hps, hp⟩ := ih (closerExp cfg nowMs b x)
    refine ⟨le_trans ih1 (closerExp_le cfg nowMs b x).1, ?_, ?_⟩
    · intro y hy
      rcases List.mem_cons.mp hy with h | h
      · rw [h]
        exact le_trans ih1 (closerExp_le cfg nowMs b x).2
      · exact ih2 y h
    · by_cases hxb : expDist cfg nowMs x < expDist cfg nowMs b
      · have hcx : closerExp cfg nowMs b x = x := by
          unfold closerExp
          rw [if_pos hxb]
        rw [hcx] at ih1 ih2 hps hp ⊢
        rcases p with _ | ⟨q, p₂⟩
        · simp only [List.nil_append] at hps
          obtain ⟨hbr, hxss⟩ := List.cons_eq_cons.mp hps
          refine ⟨[b], s, ?_, ?_⟩
          · rw [List.cons_append, List.nil_append, ← hxss, ← hbr]
          · intro y hy
            rw [List.mem_singleton] at hy
            rw [hy]
            exact lt_of_le_of_lt ih1 hxb
        · rw [List.cons_append] at hps
          obtain ⟨hq1, hq2⟩ := List.cons_eq_cons.mp hps
          have hfq := hp q (List.mem_cons_self q p₂)
          rw [← hq1] at hfq
          refine ⟨b :: x :: p₂, s, ?_, ?_⟩
          · rw [List.cons_append, List.cons_append, ← hq2]
          · intro y hy
            rcases List.mem_cons.mp hy with h | h'
            · rw [h]
              exact lt_trans hfq hxb
            · rcases List.mem_cons.mp h' with h | h
              · rw [h]
                exact hfq
              · exact hp y (List.mem_cons_of_mem q h)
      · have hcb : closerExp cfg nowMs b x = b := by
          unfold closerExp
          rw [if_neg hxb]
        rw [hcb] at ih1 ih2 hps hp ⊢
        rcases p with _ | ⟨q, p₂⟩
        · simp only [List.nil_append] at hps
          obtain ⟨hbr, hxss⟩ := List.cons_eq_cons.mp hps
          refine ⟨[], x :: xs, ?_, by simp⟩
          rw [List.nil_append, ← hbr]
        · rw [List.cons_append] at hps
          obtain ⟨hq1, hq2⟩ := List.cons_eq_cons.mp hps
          have hfq := hp q (List.mem_cons_self q p₂)
          rw [← hq1] at hfq
          refine ⟨b :: x :: p₂, s, ?_, ?_⟩
          · rw [List.cons_append, List.cons_append, ← hq2]
          · intro y hy
            rcases List.mem_cons.mp hy with h | h'
            · rw [h]
              exact hfq
            · rcases List.mem_cons.mp h' with h | h
              · rw [h]
                exact lt_of_lt_of_le hfq (not_lt.mp hxb)
              · exact hp y (List.mem_cons_of_mem q h)

/-- Rewrite equation: a throwing snapshot fetch aborts the loop. -/
theorem qualifyLoop_cons_error {env : Env} {cfg : Config} {equity : ℚ} {bexp : ℤ}
    {dir : Direction} {c : ChainContract} {rest : List ChainContract} {e : Unit}
    (hs : env.getOptSnapshot c.symbol = Except.error e) :
    qualifyLoop env cfg equity bexp dir (c :: rest) = (Except.error e, 1) := by
  simp only [qualifyLoop, hs]

/-- Rewrite equation: a qualifying candidate returns at once. -/
theorem qualifyLoop_cons_some {env : Env} {cfg : Config} {equity : ℚ} {bexp : ℤ}
    {dir : Direction} {c : ChainContract} {rest : List ChainContract}
    {snap : Option OptSnapshot} {r : OptionsContract}
    (hs : env.getOptSnapshot c.symbol = Except.ok snap)
    (he : evalCandidate cfg equity bexp dir c snap = some r) :
    qualifyLoop env cfg equity bexp dir (c :: rest) = (Except.ok (some r), 1) := by
  simp only [qualifyLoop, hs, he]

/-- Rewrite equation: a rejected candidate recurses with one more fetch. -/
theorem qualifyLoop_cons_none {env : Env} {cfg : Config} {equity : ℚ} {bexp : ℤ}
    {dir : Direction} {c : ChainContract} {rest : List ChainContract}
    {snap : Option OptSnapshot}
    (hs : env.getOptSnapshot c.symbol = Except.ok snap)
    (he : evalCandidate cfg equity bexp dir c snap = none) :
    qualifyLoop env cfg equity bexp dir (c :: rest) =
      ((qualifyLoop env cfg equity bexp dir rest).1,
        (qualifyLoop env cfg equity bexp dir rest).2 + 1) := by
  simp only [qualifyLoop, hs, he]

/-- The loop issues at most one snapshot fetch per candidate. -/
theorem qualifyLoop_count_le (env : Env) (cfg : Config) (equity : ℚ) (bexp : ℤ)
    (dir : Direction) : ∀ l : List ChainContract,
    (qualifyLoop env cfg equity bexp dir l).2 ≤ l.length := by
  intro l
  induction l with
  | nil => simp [qualifyLoop]
  | cons c rest ih =>
    cases hs : env.getOptSnapshot c.symbol with
    | error e =>
      rw [qualifyLoop_cons_error hs]
      simp
    | ok snap =>
      cases he : evalCandidate cfg equity bexp dir c snap with
      | some r =>
        rw [qualifyLoop_cons_some hs he]
        simp
      | none =>
        rw [qualifyLoop_cons_none hs he]
        simp only [List.length_cons]
        exact Nat.add_le_add_right ih 1

/-- When no snapshot fetch throws, the loop returns exactly the first
candidate whose evaluation succeeds (List.find? semantics), and none when
every candidate is rejected. -/
theorem qualifyLoop_find (env : Env) (cfg : Config) (equity : ℚ) (bexp : ℤ)
    (dir : Direction) : ∀ l : List ChainContract,
    (∀ c ∈ l, ∃ s, env.getOptSnapshot c.symbol = Except.ok s) →
    (qualifyLoop env cfg equity bexp dir l).1 =
      Except.ok ((l.find? fun c => (evalCandidateE env cfg equity bexp dir c).isSome).bind
        (evalCandidateE env cfg equity bexp dir)) := by
  intro l
  induction l with
  | nil => intro _; simp [qualifyLoop]
  | cons c rest ih =>
    intro hok
    obtain ⟨s, hs⟩ := hok c (List.mem_cons_self c rest)
    have hE : evalCandidateE env cfg equity bexp dir c = evalCandidate cfg equity bexp dir c s := by
      unfold evalCandidateE
      rw [hs]
    cases he : evalCandidate cfg equity bexp dir c s with
    | some r =>
      rw [qualifyLoop_cons_some hs he]
      have hps : (evalCandidateE env cfg equity bexp dir c).isSome = true := by
        rw [hE, he]
        rfl
      rw [show (c :: rest).find? (fun c => (evalCandidateE env cfg equity bexp dir c).isSome) =
          some c from List.find?_cons_of_pos rest hps]
      simp [hE, he]
    | none =>
      rw [qualifyLoop_cons_none hs he]
      have hng : (evalCandidateE env cfg equity bexp dir c).isSome = false := by
        rw [hE, he]
        rfl
      rw [show (c :: rest).find? (fun c => (evalCandidateE env cfg equity bexp dir c).isSome) =
          rest.find? (fun c => (evalCandidateE env cfg equity bexp dir c).isSome) from
          List.find?_cons_of_neg rest (by simp [hng])]
      exact ih fun c' hc' => hok c' (List.mem_cons_of_mem c hc')

/-- A successful loop result comes from some candidate of the list whose
snapshot fetch succeeded and whose evaluation passed every gate. -/
theorem qualifyLoop_mem (env : Env) (cfg : Config) (equity : ℚ) (bexp : ℤ)
    (dir : Direction) : ∀ (l : List ChainContract) (r : OptionsContract),
    (qualifyLoop env cfg equity bexp dir l).1 = Except.ok (some r) →
    ∃ c ∈ l, ∃ snap, env.getOptSnapshot c.symbol = Except.ok snap ∧
      evalCandidate cfg equity bexp dir c snap = some r := by
  intro l
  induction l with
  | nil =>
    intro r h
    simp [qualifyLoop] at h
  | cons c rest ih =>
    intro r h
    cases hs : env.getOptSnapshot c.symbol with
    | error e =>
      rw [qualifyLoop_cons_error hs] at h
      simp at h
    | ok snap =>
      cases he : evalCandidate cfg equity bexp dir c snap with
      | some r' =>
        rw [qualifyLoop_cons_some hs he] at h
        simp only [Except.ok.injEq, Option.some.injEq] at h
        exact ⟨c, List.mem_cons_self c rest, snap, hs, by rw [he, h]⟩
      | none =>
        rw [qualifyLoop_cons_none hs he] at h
        obtain ⟨c', hc', snap', hs', he'⟩ := ih r h
        exact ⟨c', List.mem_cons_of_mem c hc', snap', hs', he'⟩

/-- When the loop succeeds, the number of snapshot fetches is exactly the
number of rejected candidates before the winner, plus one: no fetch is
issued after the first qualifying candidate. -/
theorem qualifyLoop_count_found (env : Env) (cfg : Config) (equity : ℚ) (bexp : ℤ)
    (dir : Direction) : ∀ (l : List ChainContract) (r : OptionsContract),
    (qualifyLoop env cfg equity bexp dir l).1 = Except.ok (some r) →
    (qualifyLoop env cfg equity bexp dir l).2 =
      (l.takeWhile fun c => !(evalCandidateE env cfg equity bexp dir c).isSome).length + 1 := by
  intro l
  induction l with
  | nil =>
    intro r h
    simp [qualifyLoop] at h
  | cons c rest ih =>
    intro r h
    cases hs : env.getOptSnapshot c.symbol with
    | error e =>
      rw [qualifyLoop_cons_error hs] at h
      simp at h
    | ok snap =>
      have hE : evalCandidateE env cfg equity bexp dir c = evalCandidate cfg equity bexp dir c snap := by
        unfold evalCandidateE
        rw [hs]
      cases he : evalCandidate cfg equity bexp dir c snap with
      | some r' =>
        rw [qualifyLoop_cons_some hs he]
        have hps : (evalCandidateE env cfg equity bexp dir c).isSome = true := by
          rw [hE, he]
          rfl
        rw [show (c :: rest).takeWhile (fun c => !(evalCandidateE env cfg equity bexp dir c).isSome) =
            [] from List.takeWhile_cons_of_neg (by simp [hps])]
        rfl
      | none =>
        rw [qualifyLoop_cons_none hs he] at h ⊢
        have hng : (evalCandidateE env cfg equity bexp dir c).isSome = false := by
          rw [hE, he]
          rfl
        rw [show (c :: rest).takeWhile (fun c => !(evalCandidateE env cfg equity bexp dir c).isSome) =
            c :: rest.takeWhile (fun c => !(evalCandidateE env cfg equity bexp dir c).isSome) from
            List.takeWhile_cons_of_pos (by simp [hng])]
        simp only [List.length_cons]
        rw [ih r h]

/-- Per-stage call bounds of the inner pipeline. -/
theorem findBestInner_calls (env : Env) (cfg : Config) (dir : Direction) (equity : ℚ) :
    (findBestInner env cfg dir equity).2.expirations ≤ 1
    ∧ (findBestInner env cfg dir equity).2.chain ≤ 1
    ∧ (findBestInner env cfg dir equity).2.stock ≤ 1
    ∧ (findBestInner env cfg dir equity).2.snaps ≤ 5 := by
  unfold findBestInner
  split <;> try simp
  split <;> try simp
  split <;> try simp
  split <;> try simp
  split <;> try simp
  split <;> try simp
  split <;> try simp
  exact le_trans (qualifyLoop_count_le _ _ _ _ _ _) (by simp)

/-- A successful inner run comes from a positive-strike ranked candidate
whose snapshot fetch succeeded and whose evaluation passed every gate. -/
theorem findBestInner_some (env : Env) (cfg : Config) (dir : Direction) (equity : ℚ)
    (r : OptionsContract) (h : (findBestInner env cfg dir equity).1 = Except.ok (some r)) :
    ∃ (bexp : ℤ) (c : ChainContract) (snap : Option OptSnapshot),
      0 < c.strike ∧ env.getOptSnapshot c.symbol = Except.ok snap ∧
      evalCandidate cfg equity bexp dir c snap = some r := by
  unfold findBestInner at h
  split at h <;> try simp at h
  split at h <;> try simp at h
  split at h <;> try simp at h
  split at h <;> try simp at h
  split at h <;> try simp at h
  split at h <;> try simp at h
  split at h <;> try simp at h
  obtain ⟨c, hc, snap, hs, he⟩ := qualifyLoop_mem _ _ _ _ _ _ r h
  refine ⟨_, c, snap, ?_, hs, he⟩
  have hcr := List.mem_of_mem_take hc
  unfold rankedContractsOf at hcr
  exact of_decide_eq_true (List.mem_filter.mp (List.mem_mergeSort.mp hcr)).2

/-- When every underlying price source is zero or missing, the inner
pipeline cannot select a contract and issues no candidate snapshot fetch. -/
theorem findBestInner_stockZero (env : Env) (cfg : Config) (dir : Direction) (equity : ℚ)
    (h : stockPriceOf (match env.getStockSnapshot with
      | Except.error _ => none
      | Except.ok s => s) = 0) :
    (∀ r : OptionsContract, (findBestInner env cfg dir equity).1 ≠ Except.ok (some r))
    ∧ (findBestInner env cfg dir equity).2.snaps = 0 := by
  unfold findBestInner
  split
  case h_1 => simp
  case h_2 => simp
  case h_3 =>
    split
    case isTrue => simp
    case isFalse =>
      split
      case h_1 => simp
      case h_2 =>
        split
        case h_1 => simp
        case h_2 => simp
        case h_3 =>
          split
          case h_1 => simp
          case h_2 =>
            split
            case isTrue => simp
            case isFalse =>
              rw [if_pos h]
              simp

/-- Anatomy of a successful candidate evaluation: every gate holds and the
result record is built from the candidate, the snapshot and the sizing. -/
theorem evalCandidate_some (cfg : Config) (equity : ℚ) (bexp : ℤ) (dir : Direction)
    (c : ChainContract) (snap? : Option OptSnapshot) (r : OptionsContract)
    (h : evalCandidate cfg equity bexp dir c snap? = some r) :
    ∃ snap delta, snap? = some snap ∧ snap.greeks.bind Greeks.delta = some delta ∧
      cfg.options_min_delta ≤ |delta| ∧ |delta| ≤ cfg.options_max_delta ∧
      jsOrQ (snap.latest_quote.bind Quote.bid_price) 0 ≠ 0 ∧
      jsOrQ (snap.latest_quote.bind Quote.ask_price) 0 ≠ 0 ∧
      (jsOrQ (snap.latest_quote.bind Quote.ask_price) 0 -
          jsOrQ (snap.latest_quote.bind Quote.bid_price) 0) /
        jsOrQ (snap.latest_quote.bind Quote.ask_price) 0 ≤ 0.1 ∧
      r = { symbol := c.symbol
            strike := c.strike
            expiration := bexp
            delta := delta
            mid_price := (jsOrQ (snap.latest_quote.bind Quote.bid_price) 0 +
              jsOrQ (snap.latest_quote.bind Quote.ask_price) 0) / 2
            max_contracts := maxContractsOf equity cfg.options_max_pct_per_trade
              ((jsOrQ (snap.latest_quote.bind Quote.bid_price) 0 +
                jsOrQ (snap.latest_quote.bind Quote.ask_price) 0) / 2)
            option_type := optionTypeOf dir } ∧
      1 ≤ r.max_contracts := by
  cases snap? with
  | none => simp [evalCandidate] at h
  | some snap =>
    simp only [evalCandidate] at h
    cases hd : snap.greeks.bind Greeks.delta with
    | none =>
      rw [hd] at h
      simp at h
    | some delta =>
      rw [hd] at h
      dsimp only at h
      split_ifs at h with h1 h2 h3 h4
      simp only [Option.some.injEq] at h
      push_neg at h1 h2
      refine ⟨snap, delta, rfl, hd, h1.1, h1.2, h2.1, h2.2, not_lt.mp h3, h.symm, ?_⟩
      rw [← h]
      exact not_lt.mp h4

/-- A candidate evaluation succeeds exactly when the spec-worded
qualification conditions hold. -/
theorem evalCandidate_isSome_iff (cfg : Config) (equity : ℚ) (bexp : ℤ) (dir : Direction)
    (c : ChainContract) (snap? : Option OptSnapshot) :
    (evalCandidate cfg equity bexp dir c snap?).isSome = true ↔ qualifiesSpec cfg equity snap? := by
  constructor
  · intro h
    obtain ⟨r, hr⟩ := Option.isSome_iff_exists.mp h
    obtain ⟨snap, delta, hsn, hd, hlo, hhi, hb, ha, hsp, hre, hmc⟩ :=
      evalCandidate_some cfg equity bexp dir c snap? r hr
    refine ⟨snap, delta, hsn, hd, hlo, hhi, hb, ha, hsp, ?_⟩
    rw [hre] at hmc
    exact hmc
  · rintro ⟨snap, delta, rfl, hd, hlo, hhi, hb, ha, hsp, hmc⟩
    simp only [evalCandidate, hd]
    rw [if_neg (not_or.mpr ⟨not_lt.mpr hlo, not_lt.mpr hhi⟩),
      if_neg (not_or.mpr ⟨hb, ha⟩), if_neg (not_lt.mpr hsp), if_neg (not_lt.mpr hmc)]
    rfl

/-- An undersized candidate is rejected even when every other gate passes. -/
theorem evalCandidate_reject_size (cfg : Config) (equity : ℚ) (bexp : ℤ) (dir : Direction)
    (c : ChainContract) (snap : OptSnapshot)
    (h : maxContractsOf equity cfg.options_max_pct_per_trade
      ((jsOrQ (snap.latest_quote.bind Quote.bid_price) 0 +
        jsOrQ (snap.latest_quote.bind Quote.ask_price) 0) / 2) < 1) :
    evalCandidate cfg equity bexp dir c (some snap) = none := by
  simp only [evalCandidate]
  cases hd : snap.greeks.bind Greeks.delta with
  | none => rfl
  | some delta =>
    dsimp only
    split_ifs <;> rfl

/-- A mid price reached when the bid/ask, spread and sizing gates all pass
against a nonnegative budget is positive. -/
theorem midPrice_pos {bid ask budget : ℚ} (ha : ask ≠ 0)
    (hs : (ask - bid) / ask ≤ 0.1) (hbud : 0 ≤ budget)
    (hmc : 1 ≤ ⌊budget / ((bid + ask) / 2 * 100)⌋) : 0 < (bid + ask) / 2 := by
  rcases lt_trichotomy ((bid + ask) / 2) 0 with hlt | heq | hgt
  · exfalso
    have hq : budget / ((bid + ask) / 2 * 100) ≤ 0 :=
      div_nonpos_iff.mpr (Or.inl ⟨hbud, by nlinarith⟩)
    have hf : ⌊budget / ((bid + ask) / 2 * 100)⌋ ≤ 0 := Int.floor_nonpos hq
    omega
  · exfalso
    have hba : bid = -ask := by linarith
    rw [hba, sub_neg_eq_add, ← two_mul, mul_div_assoc, div_self ha, mul_one] at hs
    norm_num at hs
  · exact hgt

/-! ### Concrete environments and configurations for witnesses -/

/-- A representative configuration: options enabled, DTE window [5, 15],
target delta 0.7, delta band [0.3, 0.9], 5% of equity per trade. -/
def cfgA : Config :=
  { options_enabled := true
    options_min_dte := 5
    options_max_dte := 15
    options_target_delta := 0.7
    options_min_delta := 0.3
    options_max_delta := 0.9
    options_max_pct_per_trade := 0.05 }

/-- A liquid option snapshot: bid 4.6, ask 5.0 (mid 4.8), delta 0.5. -/
def snapLiquid : OptSnapshot := ⟨some ⟨some 4.6, some 5.0⟩, some ⟨some 0.5⟩⟩

/-- A pricier option snapshot: bid 5.8, ask 6.2 (mid 6.0), delta 0.5. -/
def snapPricey : OptSnapshot := ⟨some ⟨some 5.8, some 6.2⟩, some ⟨some 0.5⟩⟩

/-- An option snapshot with negative bid and ask: bid -6, ask -4 (mid -5),
delta 0.5. -/
def snapNeg : OptSnapshot := ⟨some ⟨some (-6), some (-4)⟩, some ⟨some 0.5⟩⟩

/-- A well-behaved provider environment at the epoch: expirations on days
3, 10 and 20, one call contract at strike 96, underlying trading at 100,
every option snapshot liquid. -/
def envA : Env :=
  { getExpirations := .ok (some [3, 10, 20])
    getChain := .ok (some ⟨some [⟨"OPT1", 96⟩], some []⟩)
    getStockSnapshot := .ok (some ⟨some ⟨some 100⟩, none⟩)
    getOptSnapshot := fun _ => .ok (some snapLiquid)
    nowMs := 0 }

/-- Like envA, but the contract named A is pricey and everything else is
liquid. -/
def envB : Env :=
  { getExpirations := .ok (some [3, 10, 20])
    getChain := .ok (some ⟨some [⟨"A", 96⟩, ⟨"B", 95⟩], some []⟩)
    getStockSnapshot := .ok (some ⟨some ⟨some 100⟩, none⟩)
    getOptSnapshot := fun sym => if sym = "A" then .ok (some snapPricey) else .ok (some snapLiquid)
    nowMs := 0 }

/-- Like envA, but every option snapshot has negative bid and ask. -/
def envNeg : Env :=
  { getExpirations := .ok (some [3, 10, 20])
    getChain := .ok (some ⟨some [⟨"OPT1", 96⟩], some []⟩)
    getStockSnapshot := .ok (some ⟨some ⟨some 100⟩, none⟩)
    getOptSnapshot := fun _ => .ok (some snapNeg)
    nowMs := 0 }

/-- An environment whose expirations fetch throws. -/
def envErr : Env :=
  { getExpirations := .error ()
    getChain := .ok none
    getStockSnapshot := .ok none
    getOptSnapshot := fun _ => .ok none
    nowMs := 0 }

/-- An environment with one valid expiration but every underlying price
source zero or missing. -/
def envZero : Env :=
  { getExpirations := .ok (some [10])
    getChain := .ok (some ⟨some [⟨"OPT1", 96⟩], some []⟩)
    getStockSnapshot := .ok (some ⟨some ⟨some 0⟩, none⟩)
    getOptSnapshot := fun _ => .ok none
    nowMs := 0 }

/-- An environment whose only expiration (day 3) falls outside the DTE
window of cfgA. -/
def envDte : Env :=
  { getExpirations := .ok (some [3])
    getChain := .ok none
    getStockSnapshot := .ok none
    getOptSnapshot := fun _ => .ok none
    nowMs := 0 }

/-! ### Claims -/

/-- C2: for every expiration date and current time, the engine's DTE
equals ceil((expiration_midnight - today_midnight) / 1 day), and an
expiration on a future calendar day (in particular one whose instant is
still in the future) counts as at least 1 DTE regardless of the current
time of day. -/
theorem C2_dte_day_granularity (expDay nowMs : ℤ) :
    dteOfExp nowMs expDay = specDte expDay nowMs
    ∧ (⌊(nowMs : ℚ) / (msPerDay : ℚ)⌋ < expDay → 1 ≤ dteOfExp nowMs expDay)
    ∧ (nowMs < expDay * msPerDay → 1 ≤ dteOfExp nowMs expDay) := by
  refine ⟨by rw [dteOfExp_eq, specDte_eq], ?_, ?_⟩
  · intro h
    rw [dteOfExp_eq]
    omega
  · intro h
    have hD : (0 : ℚ) < (msPerDay : ℚ) := by norm_num [msPerDay]
    have hlt : (nowMs : ℚ) / (msPerDay : ℚ) < (expDay : ℚ) := by
      rw [div_lt_iff₀ hD]
      exact_mod_cast h
    have hfl : ⌊(nowMs : ℚ) / (msPerDay : ℚ)⌋ < expDay := Int.floor_lt.mpr hlt
    rw [dteOfExp_eq]
    omega

/-- Witness for C2 at expiration day 1 and current instant 5 ms. -/
theorem C2_witness :
    dteOfExp 5 1 = specDte 1 5 ∧ 1 ≤ dteOfExp 5 1 ∧ 1 ≤ dteOfExp 5 1 := by
  refine ⟨(C2_dte_day_granularity 1 5).1, (C2_dte_day_granularity 1 5).2.1 ?_,
    (C2_dte_day_granularity 1 5).2.2 ?_⟩
  · norm_num [msPerDay]
  · norm_num [msPerDay]

/-- C7: the target strike is price * (1 - (targetDelta - 0.5) * 0.2) for
the bullish direction and price * (1 + (targetDelta - 0.5) * 0.2) for the
bearish one; with target delta 0.7 and underlying price 100 the bullish
target strike is 96. -/
theorem C7_target_strike (cfg : Config) (p : ℚ) :
    targetStrikeOf .bullish cfg p = p * (1 - (cfg.options_target_delta - 0.5) * 0.2)
    ∧ targetStrikeOf .bearish cfg p = p * (1 + (cfg.options_target_delta - 0.5) * 0.2)
    ∧ targetStrikeOf .bullish { cfg with options_target_delta := 0.7 } 100 = 96 := by
  refine ⟨rfl, rfl, ?_⟩
  show (100 : ℚ) * (1 - ((0.7 : ℚ) - 0.5) * 0.2) = 96
  norm_num

/-- C5: the engine's only observable outcomes are a contract or null, and
a provider failure at any stage yields null rather than a propagated
exception. -/
theorem C5_null_on_failure (env : Env) (cfg : Config) (dir : Direction) (equity : ℚ) :
    (∀ e : Unit, (findBestInner env cfg dir equity).1 = Except.error e →
      findBestOptionsContract env cfg dir equity = none)
    ∧ (findBestOptionsContract env cfg dir equity = none
        ∨ ∃ r, findBestOptionsContract env cfg dir equity = some r) := by
  constructor
  · intro e he
    unfold findBestOptionsContract
    by_cases hen : cfg.options_enabled = false
    · rw [if_pos hen]
    · rw [if_neg hen, he]
  · cases h : findBestOptionsContract env cfg dir equity with
    | none => exact Or.inl rfl
    | some r => exact Or.inr ⟨r, rfl⟩

/-- Witness for C5: an environment whose expirations fetch throws yields
null. -/
theorem C5_witness : findBestOptionsContract envErr cfgA .bullish 1000 = none :=
  (C5_null_on_failure envErr cfgA .bullish 1000).1 () rfl

/-- C4: position size is floor(equity * maxPct / (mid * 100)) with
mid = (bid + ask) / 2; in particular 10000 * 0.05 over mid 4.80 gives 1
contract while mid 6.00 gives 0; a size below 1 rejects the candidate even
when every other gate passes, and the loop then tries the next one. -/
theorem C4_position_sizing :
    (∀ equity maxPct bid ask : ℚ,
      maxContractsOf equity maxPct ((bid + ask) / 2) =
        ⌊equity * maxPct / ((bid + ask) / 2 * 100)⌋)
    ∧ maxContractsOf 10000 0.05 4.8 = 1
    ∧ maxContractsOf 10000 0.05 6 = 0
    ∧ (∀ (cfg : Config) (equity : ℚ) (bexp : ℤ) (dir : Direction) (c : ChainContract)
        (snap : OptSnapshot),
        maxContractsOf equity cfg.options_max_pct_per_trade
          ((jsOrQ (snap.latest_quote.bind Quote.bid_price) 0 +
            jsOrQ (snap.latest_quote.bind Quote.ask_price) 0) / 2) < 1 →
        evalCandidate cfg equity bexp dir c (some snap) = none)
    ∧ (qualifyLoop envB cfgA 10000 10 .bullish [⟨"A", 96⟩, ⟨"B", 95⟩]).1 =
        Except.ok (some ⟨"B", 95, 10, 0.5, 4.8, 1, .call⟩) := by
  refine ⟨fun _ _ _ _ => rfl, by norm_num [maxContractsOf], by norm_num [maxContractsOf],
    fun cfg equity bexp dir c snap h => evalCandidate_reject_size cfg equity bexp dir c snap h,
    ?_⟩
  have hA : envB.getOptSnapshot "A" = Except.ok (some snapPricey) := by simp [envB]
  have hB : envB.getOptSnapshot "B" = Except.ok (some snapLiquid) := by simp [envB]
  have heA : evalCandidate cfgA 10000 10 .bullish ⟨"A", 96⟩ (some snapPricey) = none := by
    refine evalCandidate_reject_size cfgA 10000 10 .bullish ⟨"A", 96⟩ snapPricey ?_
    norm_num [snapPricey, jsOrQ, maxContractsOf, cfgA]
  have heB : evalCandidate cfgA 10000 10 .bullish ⟨"B", 95⟩ (some snapLiquid) =
      some ⟨"B", 95, 10, 0.5, 4.8, 1, .call⟩ := by
    norm_num [evalCandidate, snapLiquid, jsOrQ, maxContractsOf, cfgA, optionTypeOf,
      abs_of_nonneg]
  rw [qualifyLoop_cons_none hA heA]
  rw [show ((qualifyLoop envB cfgA 10000 10 .bullish [⟨"B", 95⟩]).1,
      (qualifyLoop envB cfgA 10000 10 .bullish [⟨"B", 95⟩]).2 + 1).1 =
      (qualifyLoop envB cfgA 10000 10 .bullish [⟨"B", 95⟩]).1 from rfl]
  rw [qualifyLoop_cons_some hB heB]

/-- Witness for C4: a snapshot whose mid price 6.00 against a 500 budget
sizes to 0 contracts is rejected. -/
theorem C4_witness :
    evalCandidate cfgA 10000 10 .bullish ⟨"A", 96⟩ (some snapPricey) = none := by
  refine C4_position_sizing.2.2.2.1 cfgA 10000 10 .bullish ⟨"A", 96⟩ snapPricey ?_
  norm_num [snapPricey, jsOrQ, maxContractsOf, cfgA]

/-- C8: ranking removes non-positive strikes and stably sorts the rest by
distance to the target strike: the result is a permutation of the
positive-strike contracts, is sorted ascending by distance, and any pair
in input order with non-decreasing distances (in particular equal
distances) keeps its relative order. -/
theorem C8_stable_ranking (targetStrike : ℚ) (contracts : List ChainContract) :
    (rankedContractsOf targetStrike contracts).Perm
      (contracts.filter fun c => decide (0 < c.strike))
    ∧ (rankedContractsOf targetStrike contracts).Pairwise
        (fun a b => strikeDist targetStrike a ≤ strikeDist targetStrike b)
    ∧ ∀ a b : ChainContract,
        List.Sublist [a, b] (contracts.filter fun c => decide (0 < c.strike)) →
        strikeDist targetStrike a ≤ strikeDist targetStrike b →
        List.Sublist [a, b] (rankedContractsOf targetStrike contracts) := by
  have htrans : ∀ x y z : ChainContract,
      decide (strikeDist targetStrike x ≤ strikeDist targetStrike y) = true →
      decide (strikeDist targetStrike y ≤ strikeDist targetStrike z) = true →
      decide (strikeDist targetStrike x ≤ strikeDist targetStrike z) = true := by
    intro x y z hxy hyz
    rw [decide_eq_true_eq] at hxy hyz ⊢
    exact le_trans hxy hyz
  have htotal : ∀ x y : ChainContract,
      (decide (strikeDist targetStrike x ≤ strikeDist targetStrike y) ||
        decide (strikeDist targetStrike y ≤ strikeDist targetStrike x)) = true := by
    intro x y
    simp [le_total]
  refine ⟨List.mergeSort_perm _ _, ?_, ?_⟩
  · have hp := List.sorted_mergeSort htrans htotal
      (contracts.filter fun c => decide (0 < c.strike))
    exact hp.imp fun h => of_decide_eq_true h
  · intro a b hsub hle
    exact List.pair_sublist_mergeSort htrans htotal (decide_eq_true hle) hsub

/-- Witness for C8: two contracts at strike 10 and equal distance from
target 8 keep their input order in the ranking. -/
theorem C8_witness :
    List.Sublist [(⟨"A", 10⟩ : ChainContract), ⟨"B", 10⟩]
      (rankedContractsOf 8 [⟨"A", 10⟩, ⟨"B", 10⟩]) := by
  refine (C8_stable_ranking 8 [⟨"A", 10⟩, ⟨"B", 10⟩]).2.2 ⟨"A", 10⟩ ⟨"B", 10⟩ ?_ ?_
  · have hf : ([⟨"A", 10⟩, ⟨"B", 10⟩] : List ChainContract).filter
        (fun c => decide (0 < c.strike)) = [⟨"A", 10⟩, ⟨"B", 10⟩] := by
      norm_num
    rw [hf]
  · norm_num [strikeDist]

/-- The reduce step keeps the incumbent when compared with itself. -/
theorem closerExp_self (cfg : Config) (nowMs b : ℤ) : closerExp cfg nowMs b b = b := by
  unfold closerExp
  exact if_neg (lt_irrefl _)

/-- C1: the expiration selector keeps exactly the expirations with DTE in
[minDTE, maxDTE]; an empty filtered set makes the whole selection null;
otherwise the chosen expiration minimizes the distance of its DTE to the
real-valued window midpoint, with ties resolved to the first candidate in
input order (everything strictly before the incumbent is strictly
farther). -/
theorem C1_expiration_selection (env : Env) (cfg : Config) (dir : Direction) (equity : ℚ)
    (exps : List ℤ) :
    (∀ e : ℤ, e ∈ validExpirationsOf cfg env.nowMs exps ↔
      (e ∈ exps ∧ cfg.options_min_dte ≤ dteOfExp env.nowMs e ∧
        dteOfExp env.nowMs e ≤ cfg.options_max_dte))
    ∧ (env.getExpirations = Except.ok (some exps) →
        validExpirationsOf cfg env.nowMs exps = [] →
        findBestOptionsContract env cfg dir equity = none)
    ∧ (∀ (v0 : ℤ) (rest : List ℤ), validExpirationsOf cfg env.nowMs exps = v0 :: rest →
        ∃ b, bestExpirationOf cfg env.nowMs (validExpirationsOf cfg env.nowMs exps) = some b
          ∧ b ∈ validExpirationsOf cfg env.nowMs exps
          ∧ (∀ e ∈ validExpirationsOf cfg env.nowMs exps,
              expDist cfg env.nowMs b ≤ expDist cfg env.nowMs e)
          ∧ ∃ p s, validExpirationsOf cfg env.nowMs exps = p ++ b :: s
              ∧ ∀ e ∈ p, expDist cfg env.nowMs b < expDist cfg env.nowMs e) := by
  refine ⟨?_, ?_, ?_⟩
  · intro e
    simp [validExpirationsOf, List.mem_filter, and_assoc]
  · intro h1 h2
    unfold findBestOptionsContract
    by_cases hen : cfg.options_enabled = false
    · rw [if_pos hen]
    · rw [if_neg hen]
      rcases exps with _ | ⟨a, t⟩
      · simp [findBestInner, h1]
      · simp [findBestInner, h1, h2, bestExpirationOf]
  · intro v0 rest hv
    obtain ⟨ih1, ih2, p, s, hps, hp⟩ := foldl_closerExp_argmin cfg env.nowMs rest v0
    refine ⟨rest.foldl (closerExp cfg env.nowMs) v0, ?_, ?_, ?_, p, s, ?_, hp⟩
    · rw [hv]
      unfold bestExpirationOf
      dsimp only
      rw [List.foldl_cons, closerExp_self]
    · rw [hv, hps]
      exact List.mem_append_right p (List.mem_cons_self _ s)
    · intro e he
      rw [hv] at he
      rcases List.mem_cons.mp he with h | h
      · rw [h]
        exact ih1
      · exact ih2 e h
    · rw [hv, hps]

/-- Witness for C1: with the window [5, 15] over expirations on days 3,
10 and 20 at the epoch, day 10 is kept; with only day 3 available the
selection is null; and the selector returns day 10 as the minimizer. -/
theorem C1_witness :
    (10 ∈ validExpirationsOf cfgA envA.nowMs [3, 10, 20])
    ∧ findBestOptionsContract envDte cfgA .bullish 1000 = none
    ∧ ∃ b, bestExpirationOf cfgA envA.nowMs (validExpirationsOf cfgA envA.nowMs [3, 10, 20]) =
        some b
      ∧ b ∈ validExpirationsOf cfgA envA.nowMs [3, 10, 20]
      ∧ (∀ e ∈ validExpirationsOf cfgA envA.nowMs [3, 10, 20],
          expDist cfgA envA.nowMs b ≤ expDist cfgA envA.nowMs e)
      ∧ ∃ p s, validExpirationsOf cfgA envA.nowMs [3, 10, 20] = p ++ b :: s
          ∧ ∀ e ∈ p, expDist cfgA envA.nowMs b < expDist cfgA envA.nowMs e := by
  have hnow : envA.nowMs = 0 := rfl
  have hv : validExpirationsOf cfgA envA.nowMs [3, 10, 20] = [10] := by
    simp [validExpirationsOf, hnow, dteOfExp_zero, cfgA]
  refine ⟨?_, ?_, ?_⟩
  · exact ((C1_expiration_selection envA cfgA .bullish 1000 [3, 10, 20]).1 10).mpr
      ⟨by simp, by rw [hnow, dteOfExp_zero]; norm_num [cfgA], by rw [hnow, dteOfExp_zero]; norm_num [cfgA]⟩
  · refine (C1_expiration_selection envDte cfgA .bullish 1000 [3]).2.1 rfl ?_
    have : envDte.nowMs = 0 := rfl
    simp [validExpirationsOf, this, dteOfExp_zero, cfgA]
  · exact (C1_expiration_selection envA cfgA .bullish 1000 [3, 10, 20]).2.2 10 [] hv

/-- C3: a candidate is rejected exactly when its snapshot is absent, its
delta is absent or out of band, its bid or ask is zero, its spread
fraction exceeds 10%, or its size is below one contract; a returned
result carries the candidate symbol and strike, the chosen expiration and
the direction-matching option type; and when no fetch throws, the loop
returns the first qualifying candidate and null when all are rejected. -/
theorem C3_candidate_qualification (env : Env) (cfg : Config) (equity : ℚ) (bexp : ℤ)
    (dir : Direction) :
    (∀ (c : ChainContract) (snap? : Option OptSnapshot),
        (evalCandidate cfg equity bexp dir c snap?).isSome = true ↔
          qualifiesSpec cfg equity snap?)
    ∧ (∀ (c : ChainContract) (snap? : Option OptSnapshot) (r : OptionsContract),
        evalCandidate cfg equity bexp dir c snap? = some r →
        r.symbol = c.symbol ∧ r.strike = c.strike ∧ r.expiration = bexp ∧
          r.option_type = optionTypeOf dir)
    ∧ (∀ l : List ChainContract,
        (∀ c ∈ l, ∃ s, env.getOptSnapshot c.symbol = Except.ok s) →
        (qualifyLoop env cfg equity bexp dir l).1 =
          Except.ok ((l.find? fun c => (evalCandidateE env cfg equity bexp dir c).isSome).bind
            (evalCandidateE env cfg equity bexp dir))) := by
  refine ⟨fun c snap? => evalCandidate_isSome_iff cfg equity bexp dir c snap?, ?_, ?_⟩
  · intro c snap? r h
    obtain ⟨snap, delta, hsn, hd, hlo, hhi, hb, ha, hsp, hre, hmc⟩ :=
      evalCandidate_some cfg equity bexp dir c snap? r h
    rw [hre]
    exact ⟨rfl, rfl, rfl, rfl⟩
  · exact qualifyLoop_find env cfg equity bexp dir

/-- Witness for C3 on a concrete liquid candidate and a singleton loop. -/
theorem C3_witness :
    ((⟨"OPT1", 96, 10, 0.5, 4.8, 1, .call⟩ : OptionsContract).symbol = "OPT1"
      ∧ (⟨"OPT1", 96, 10, 0.5, 4.8, 1, .call⟩ : OptionsContract).strike = 96
      ∧ (⟨"OPT1", 96, 10, 0.5, 4.8, 1, .call⟩ : OptionsContract).expiration = 10
      ∧ (⟨"OPT1", 96, 10, 0.5, 4.8, 1, .call⟩ : OptionsContract).option_type =
          optionTypeOf .bullish)
    ∧ (qualifyLoop envA cfgA 10000 10 .bullish [⟨"OPT1", 96⟩]).1 =
        Except.ok (([(⟨"OPT1", 96⟩ : ChainContract)].find?
            fun c => (evalCandidateE envA cfgA 10000 10 .bullish c).isSome).bind
          (evalCandidateE envA cfgA 10000 10 .bullish)) := by
  constructor
  · refine (C3_candidate_qualification envA cfgA 10000 10 .bullish).2.1
      ⟨"OPT1", 96⟩ (some snapLiquid) ⟨"OPT1", 96, 10, 0.5, 4.8, 1, .call⟩ ?_
    norm_num [evalCandidate, snapLiquid, jsOrQ, maxContractsOf, cfgA, optionTypeOf,
      abs_of_nonneg]
  · exact (C3_candidate_qualification envA cfgA 10000 10 .bullish).2.2
      [⟨"OPT1", 96⟩] (fun c _ => ⟨some snapLiquid, rfl⟩)

/-- C6: one invocation makes at most one expirations call, one chain
call, one underlying snapshot call and five candidate snapshot calls, and
once the loop finds a qualifying candidate its fetch count is exactly the
rejected prefix plus one: no snapshot is fetched after the winner. -/
theorem C6_call_budget (env : Env) (cfg : Config) (dir : Direction) (equity : ℚ) :
    (findBestCalls env cfg dir equity).expirations ≤ 1
    ∧ (findBestCalls env cfg dir equity).chain ≤ 1
    ∧ (findBestCalls env cfg dir equity).stock ≤ 1
    ∧ (findBestCalls env cfg dir equity).snaps ≤ 5
    ∧ (∀ (bexp : ℤ) (l : List ChainContract) (r : OptionsContract),
        (qualifyLoop env cfg equity bexp dir l).1 = Except.ok (some r) →
        (qualifyLoop env cfg equity bexp dir l).2 =
          (l.takeWhile fun c => !(evalCandidateE env cfg equity bexp dir c).isSome).length
            + 1) := by
  have hc := findBestInner_calls env cfg dir equity
  have hloop := fun (bexp : ℤ) (l : List ChainContract) (r : OptionsContract)
    (h : (qualifyLoop env cfg equity bexp dir l).1 = Except.ok (some r)) =>
    qualifyLoop_count_found env cfg equity bexp dir l r h
  unfold findBestCalls
  by_cases hen : cfg.options_enabled = false
  · rw [if_pos hen]
    exact ⟨Nat.zero_le 1, Nat.zero_le 1, Nat.zero_le 1, Nat.zero_le 5, hloop⟩
  · rw [if_neg hen]
    exact ⟨hc.1, hc.2.1, hc.2.2.1, hc.2.2.2, hloop⟩

/-- Witness for C6: on a singleton loop whose candidate qualifies, the
fetch count is the empty rejected prefix plus one. -/
theorem C6_witness :
    (qualifyLoop envA cfgA 10000 10 .bullish [⟨"OPT1", 96⟩]).2 =
      ([(⟨"OPT1", 96⟩ : ChainContract)].takeWhile
        fun c => !(evalCandidateE envA cfgA 10000 10 .bullish c).isSome).length + 1 := by
  refine (C6_call_budget envA cfgA .bullish 10000).2.2.2.2 10 [⟨"OPT1", 96⟩]
    ⟨"OPT1", 96, 10, 0.5, 4.8, 1, .call⟩ ?_
  have hs : envA.getOptSnapshot "OPT1" = Except.ok (some snapLiquid) := rfl
  have he : evalCandidate cfgA 10000 10 .bullish ⟨"OPT1", 96⟩ (some snapLiquid) =
      some ⟨"OPT1", 96, 10, 0.5, 4.8, 1, .call⟩ := by
    norm_num [evalCandidate, snapLiquid, jsOrQ, maxContractsOf, cfgA, optionTypeOf,
      abs_of_nonneg]
  rw [qualifyLoop_cons_some hs he]

/-- A price source that the JS || chain skips: absent or zero. -/
def zeroOrMissing (o : Option ℚ) : Prop := o = none ∨ o = some 0

/-- C9: the underlying price is the first usable source in the priority
trade price, then ask, then bid, each skipped when zero or missing; when
all three are zero or missing the whole selection is null and no
candidate snapshot is ever fetched. -/
theorem C9_underlying_price_fallback (env : Env) (cfg : Config) (dir : Direction)
    (equity : ℚ) :
    (∀ (s : Option StockSnapshot) (p : ℚ),
        (s.bind StockSnapshot.latest_trade).bind Trade.price = some p → p ≠ 0 →
        stockPriceOf s = p)
    ∧ (∀ (s : Option StockSnapshot) (p : ℚ),
        zeroOrMissing ((s.bind StockSnapshot.latest_trade).bind Trade.price) →
        (s.bind StockSnapshot.latest_quote).bind Quote.ask_price = some p → p ≠ 0 →
        stockPriceOf s = p)
    ∧ (∀ (s : Option StockSnapshot) (p : ℚ),
        zeroOrMissing ((s.bind StockSnapshot.latest_trade).bind Trade.price) →
        zeroOrMissing ((s.bind StockSnapshot.latest_quote).bind Quote.ask_price) →
        (s.bind StockSnapshot.latest_quote).bind Quote.bid_price = some p → p ≠ 0 →
        stockPriceOf s = p)
    ∧ (∀ s : Option StockSnapshot,
        zeroOrMissing ((s.bind StockSnapshot.latest_trade).bind Trade.price) →
        zeroOrMissing ((s.bind StockSnapshot.latest_quote).bind Quote.ask_price) →
        zeroOrMissing ((s.bind StockSnapshot.latest_quote).bind Quote.bid_price) →
        stockPriceOf s = 0)
    ∧ (stockPriceOf (match env.getStockSnapshot with
          | Except.error _ => none
          | Except.ok s => s) = 0 →
        findBestOptionsContract env cfg dir equity = none
        ∧ (findBestCalls env cfg dir equity).snaps = 0) := by
  refine ⟨?_, ?_, ?_, ?_, ?_⟩
  · intro s p h hp
    simp [stockPriceOf, jsOrQ, h, hp]
  · intro s p htr h hp
    rcases htr with h0 | h0 <;> simp [stockPriceOf, jsOrQ, h0, h, hp]
  · intro s p htr hask h hp
    rcases htr with h0 | h0 <;> rcases hask with h1 | h1 <;>
      simp [stockPriceOf, jsOrQ, h0, h1, h, hp]
  · intro s htr hask hbid
    rcases htr with h0 | h0 <;> rcases hask with h1 | h1 <;> rcases hbid with h2 | h2 <;>
      simp [stockPriceOf, jsOrQ, h0, h1, h2]
  · intro h
    have hz := findBestInner_stockZero env cfg dir equity h
    constructor
    · unfold findBestOptionsContract
      by_cases hen : cfg.options_enabled = false
      · rw [if_pos hen]
      · rw [if_neg hen]
        cases hi : (findBestInner env cfg dir equity).1 with
        | error e => rfl
        | ok o =>
          cases o with
          | none => rfl
          | some r => exact absurd hi (hz.1 r)
    · unfold findBestCalls
      by_cases hen : cfg.options_enabled = false
      · rw [if_pos hen]
      · rw [if_neg hen]
        exact hz.2

/-- Witness for C9: trade price wins when present and nonzero; the ask is
used when the trade price is zero; the bid is used when trade and ask are
missing or zero; an all-missing snapshot prices at zero; and the
environment whose sources are all zero or missing selects nothing and
fetches no candidate snapshot. -/
theorem C9_witness :
    stockPriceOf (some ⟨some ⟨some 100⟩, none⟩) = 100
    ∧ stockPriceOf (some ⟨some ⟨some 0⟩, some ⟨some 7, some 9⟩⟩) = 9
    ∧ stockPriceOf (some ⟨none, some ⟨some 7, some 0⟩⟩) = 7
    ∧ stockPriceOf none = 0
    ∧ findBestOptionsContract envZero cfgA .bullish 1000 = none
    ∧ (findBestCalls envZero cfgA .bullish 1000).snaps = 0 := by
  have h5 := (C9_underlying_price_fallback envZero cfgA .bullish 1000).2.2.2.2 (by rfl)
  refine ⟨?_, ?_, ?_, ?_, h5.1, h5.2⟩
  · exact (C9_underlying_price_fallback envZero cfgA .bullish 1000).1
      (some ⟨some ⟨some 100⟩, none⟩) 100 rfl (by norm_num)
  · exact (C9_underlying_price_fallback envZero cfgA .bullish 1000).2.1
      (some ⟨some ⟨some 0⟩, some ⟨some 7, some 9⟩⟩) 9 (Or.inr rfl) rfl (by norm_num)
  · exact (C9_underlying_price_fallback envZero cfgA .bullish 1000).2.2.1
      (some ⟨none, some ⟨some 7, some 0⟩⟩) 7 (Or.inl rfl) (Or.inr rfl) rfl (by norm_num)
  · exact (C9_underlying_price_fallback envZero cfgA .bullish 1000).2.2.2.1
      none (Or.inl rfl) (Or.inl rfl) (Or.inl rfl)

/-- Counterexample to C10 as stated: with negative equity the engine can
return a contract whose mid price is negative (bid -6, ask -4 pass the
gates and floor(-500 / -500) = 1), so the mid-price invariant fails
without a sign assumption on the budget. -/
theorem C10_counterexample :
    findBestOptionsContract envNeg cfgA .bullish (-10000) =
      some ⟨"OPT1", 96, 10, 0.5, -5, 1, .call⟩
    ∧ ¬(0 < (⟨"OPT1", 96, 10, 0.5, -5, 1, .call⟩ : OptionsContract).mid_price) := by
  constructor
  · norm_num [findBestOptionsContract, findBestInner, envNeg, cfgA, validExpirationsOf,
      dteOfExp_zero, bestExpirationOf, closerExp, expDist, targetDTEOf, stockPriceOf,
      jsOrQ, targetStrikeOf, rankedContractsOf, strikeDist, qualifyLoop, evalCandidate,
      snapNeg, maxContractsOf, optionTypeOf, abs_of_nonneg]
  · norm_num

/-- C10 (amended): whenever the engine returns a contract and the budget
equity * max_pct_per_trade is nonnegative (as it is for the positive
equity and nonnegative fraction of the data model), the result has at
least one contract, a positive mid price, a positive strike, a signed
snapshot delta whose magnitude lies in the configured band, and the
option type call exactly for the bullish direction. -/
theorem C10_result_invariants (env : Env) (cfg : Config) (dir : Direction) (equity : ℚ)
    (hbud : 0 ≤ equity * cfg.options_max_pct_per_trade) (r : OptionsContract)
    (hr : findBestOptionsContract env cfg dir equity = some r) :
    1 ≤ r.max_contracts ∧ 0 < r.mid_price ∧ 0 < r.strike
    ∧ cfg.options_min_delta ≤ |r.delta| ∧ |r.delta| ≤ cfg.options_max_delta
    ∧ (r.option_type = OptionType.call ↔ dir = Direction.bullish) := by
  have hi : (findBestInner env cfg dir equity).1 = Except.ok (some r) := by
    unfold findBestOptionsContract at hr
    by_cases hen : cfg.options_enabled = false
    · rw [if_pos hen] at hr
      exact absurd hr (by simp)
    · rw [if_neg hen] at hr
      cases hi : (findBestInner env cfg dir equity).1 with
      | error e =>
        rw [hi] at hr
        simp at hr
      | ok o =>
        rw [hi] at hr
        dsimp only at hr
        rw [hr]
  obtain ⟨bexp, c, snap, hstrike, hs, he⟩ := findBestInner_some env cfg dir equity r hi
  obtain ⟨sn, delta, hsn, hd, hlo, hhi, hb, ha, hsp, hre, hmc⟩ :=
    evalCandidate_some cfg equity bexp dir c snap r he
  refine ⟨hmc, ?_, ?_, ?_, ?_, ?_⟩
  · rw [hre]
    exact midPrice_pos ha hsp hbud (by rw [hre] at hmc; exact hmc)
  · rw [hre]
    exact hstrike
  · rw [hre]
    exact hlo
  · rw [hre]
    exact hhi
  · rw [hre]
    cases dir <;> simp [optionTypeOf]

/-- Witness for C10 (amended) on the liquid environment with positive
equity. -/
theorem C10_witness :
    1 ≤ (⟨"OPT1", 96, 10, 0.5, 4.8, 1, .call⟩ : OptionsContract).max_contracts
    ∧ 0 < (⟨"OPT1", 96, 10, 0.5, 4.8, 1, .call⟩ : OptionsContract).mid_price
    ∧ 0 < (⟨"OPT1", 96, 10, 0.5, 4.8, 1, .call⟩ : OptionsContract).strike
    ∧ cfgA.options_min_delta ≤ |(⟨"OPT1", 96, 10, 0.5, 4.8, 1, .call⟩ : OptionsContract).delta|
    ∧ |(⟨"OPT1", 96, 10, 0.5, 4.8, 1, .call⟩ : OptionsContract).delta| ≤ cfgA.options_max_delta
    ∧ ((⟨"OPT1", 96, 10, 0.5, 4.8, 1, .call⟩ : OptionsContract).option_type = OptionType.call ↔
        Direction.bullish = Direction.bullish) := by
  refine C10_result_invariants envA cfgA .bullish 10000 (by norm_num [cfgA]) _ ?_
  norm_num [findBestOptionsContract, findBestInner, envA, cfgA, validExpirationsOf,
    dteOfExp_zero, bestExpirationOf, closerExp, expDist, targetDTEOf, stockPriceOf,
    jsOrQ, targetStrikeOf, rankedContractsOf, strikeDist, qualifyLoop, evalCandidate,
    snapLiquid, maxContractsOf, optionTypeOf, abs_of_nonneg]

end Mahoraga
